import Mathlib

/-!
Verification of the PolicyPal conversational-pipeline core.

This file is a shallow embedding of the backend graph nodes
(`doc_resolver`, `validate_inputs`, `intent_resolver`, `format_response`)
and of the resume endpoint of the chat router.  Every definition is
translated from the Python source in `backend/app`; external collaborators
(the LLM classification capability, the Supabase entity store, the
rapidfuzz scorer) are passed in as explicit oracle parameters, exactly as
the natural-language spec treats them (opaque capabilities).  The LangGraph
`interrupt()` primitive is modelled by an `Outcome` sum: a node either
returns a partial state update, suspends with an interrupt payload, or
short-circuits (`Command(goto=...)`) with an update.  The reserved cancel
sentinel (`CANCEL_SENTINEL` in `app/graph/state.py`) is modelled as a
distinguished constructor of the resume-value type, per the spec: it is
distinct from the empty string and from every concrete string answer.
-/

namespace PolicyPal

/-- Confidence tier, `"high" | "medium" | "low"` in the Python Literal type. -/
inductive Conf where
  | high
  | medium
  | low
deriving DecidableEq, Repr

/-- A resume value delivered to a node re-entered after an interrupt.
`null` models Python `None`; `cancel` models the reserved CANCEL_SENTINEL
(distinct from every real string answer); `str s` is a concrete answer. -/
inductive RVal where
  | null
  | cancel
  | str (s : String)
deriving DecidableEq, Repr

/-- Conversation message, the subset of LangChain message data the core reads. -/
inductive Msg where
  | human (content : String)
  | ai (content : String)
  | system (content : String)
deriving DecidableEq, Repr

/-- One option of a choice interrupt: the `{"id": ..., "label": ...}` dicts. -/
structure ChoiceItem where
  id : String
  label : String
deriving DecidableEq, Repr

/-- The payload passed to `interrupt()` by every gate. -/
structure InterruptPayload where
  interrupt_type : String
  message : String
  options : Option (List ChoiceItem)
deriving DecidableEq, Repr

/-- Result of one node pass: a partial state update (plain dict return),
a suspension (`interrupt()` reached on a first pass), or a short-circuit
(`Command(update=..., goto=...)`). -/
inductive Outcome (α : Type) where
  | update (u : α)
  | suspend (p : InterruptPayload)
  | goto (u : α) (target : String)
deriving DecidableEq, Repr

/-- Last human message text, the `for msg in reversed(messages)` scan used by
`intent_resolver`, `validate_inputs` and the action nodes. -/
def lastHumanText : List Msg → Option String
  | [] => none
  | m :: rest =>
    match lastHumanText rest with
    | some s => some s
    | none => match m with
      | .human c => some c
      | _ => none

/-! ### Ordered deduplication

`list(dict.fromkeys(xs))` in Python keeps the first occurrence of every
element, in first-seen order.  `dedupFirstAux seen l` is that loop with the
set of already-seen elements made explicit. -/

def dedupFirstAux : List String → List String → List String
  | _, [] => []
  | seen, x :: xs =>
    if x ∈ seen then dedupFirstAux seen xs else x :: dedupFirstAux (x :: seen) xs

/-- Model of Python `list(dict.fromkeys(l))`. -/
def dedupFirst (l : List String) : List String := dedupFirstAux [] l

/-! ### Python dict model

Insertion-ordered association lists with unique keys.  `upsert` is
`d[k] = v`: an existing key keeps its position and gets the new value, a
fresh key is appended.  `dictMerge a b` is the dict union spelling
`{**a, **b}` used by `format_response`. -/

def keysOf (d : List (String × String)) : List String := d.map Prod.fst

def alookup : List (String × String) → String → Option String
  | [], _ => none
  | (k₁, v) :: rest, k => if k₁ = k then some v else alookup rest k

def upsert : List (String × String) → String → String → List (String × String)
  | [], k, v => [(k, v)]
  | (k₁, v₁) :: rest, k, v =>
    if k₁ = k then (k, v) :: rest else (k₁, v₁) :: upsert rest k v

def dictMerge (a b : List (String × String)) : List (String × String) :=
  b.foldl (fun acc p => upsert acc p.1 p.2) a

/-! ### Python string helpers -/

/-- Characters of the Python `str.strip()` / `\s` default set (ASCII part). -/

def pyIsSpace (c : Char) : Bool :=
  c == ' ' || c == '\t' || c == '\n' || c == '\r' || c == '\x0b' || c == '\x0c'

def pyStripList (cs : List Char) : List Char :=
  ((cs.dropWhile pyIsSpace).reverse.dropWhile pyIsSpace).reverse

/-- Model of Python `s.strip()`. -/
def pyStrip (s : String) : String := ⟨pyStripList s.data⟩

/-- Model of `re.sub(r"@\S+", "", content)` as a two-state scanner: an `@`
followed by at least one non-whitespace character is removed together with
the maximal non-whitespace run after it (the `skipping` state drops that
run). -/
def stripAtsGo : Bool → List Char → List Char
  | _, [] => []
  | true, c :: rest =>
    if pyIsSpace c then c :: stripAtsGo false rest else stripAtsGo true rest
  | false, c :: rest =>
    if c = '@' ∧ !pyIsSpace (rest.getD 0 ' ') then stripAtsGo true rest
    else c :: stripAtsGo false rest

def stripAtsList (cs : List Char) : List Char := stripAtsGo false cs

def stripAts (s : String) : String := ⟨stripAtsList s.data⟩

/-- Model of Python `str.capitalize()`: first character uppercased, the rest
lowercased. -/
def pyCapitalize (s : String) : String :=
  match s.data with
  | [] => ""
  | c :: rest => ⟨c.toUpper :: rest.map Char.toLower⟩

/-- Decidable substring check (used to state that a canned message mentions
a phrase). -/
def strContains (hay pat : String) : Bool :=
  (List.range (hay.data.length + 1)).any
    (fun i => ((hay.data.drop i).take pat.data.length) == pat.data)

/-- Python `a or b` over an optional string: `None` and `""` are falsy. -/
def strOr (a : Option String) (b : String) : String :=
  match a with
  | some s => if s = "" then b else s
  | none => b

/-- Python `s.replace("urn:", "")`: removes every occurrence, left to right,
non-overlapping. -/
def removeUrn : List Char → List Char
  | 'u' :: 'r' :: 'n' :: ':' :: rest => removeUrn rest
  | c :: rest => c :: removeUrn rest
  | [] => []

/-- Python `s.replace("uuid:", "")`. -/
def removeUuidColon : List Char → List Char
  | 'u' :: 'u' :: 'i' :: 'd' :: ':' :: rest => removeUuidColon rest
  | c :: rest => c :: removeUuidColon rest
  | [] => []

def isBraceChar (c : Char) : Bool := c == '\x7b' || c == '\x7d'

def pyIsHexDigit (c : Char) : Bool :=
  c.isDigit || (decide ('a' ≤ c) && decide (c ≤ 'f')) || (decide ('A' ≤ c) && decide (c ≤ 'F'))

/-- Model of the acceptance condition of Python `uuid.UUID(str(v))` as used
by the resume gates: strip `urn:` / `uuid:` markers, strip surrounding
braces, drop hyphens, and require exactly 32 hexadecimal digits. -/
def isValidUUID (s : String) : Bool :=
  let cs1 := removeUrn s.data
  let cs2 := removeUuidColon cs1
  let cs3 := ((cs2.dropWhile isBraceChar).reverse.dropWhile isBraceChar).reverse
  let cs4 := cs3.filter (fun c => c != '-')
  cs4.length == 32 && cs4.all pyIsHexDigit

/-! ### Word-boundary keyword scan

Models `re.search` with the two case-insensitive alternation patterns of
`intent_resolver` (`_TEMPORAL_RE`, `_SPECIFIC_TOPIC_RE`).  The optional
suffixes (`updated?`, `requirements?`, ...) are expanded into both
alternatives, which matches the same set of strings. -/

def pyWordChar (c : Char) : Bool := c.isAlphanum || c == '_'

/-- The alternative `pat` matches at index `i` of `hay` with `\b` on both
sides. -/
def wordAt (hay pat : List Char) (i : Nat) : Bool :=
  ((hay.drop i).take pat.length == pat)
  && (i == 0 || !pyWordChar (hay.getD (i - 1) ' '))
  && (i + pat.length == hay.length || !pyWordChar (hay.getD (i + pat.length) ' '))

def matchesWord (pats : List String) (s : String) : Bool :=
  let hay := s.data.map Char.toLower
  pats.any (fun p => (List.range (hay.length + 1)).any (fun i => wordAt hay p.data i))

/-- `_TEMPORAL_RE` of `intent_resolver`. -/
def temporalMatch (s : String) : Bool :=
  matchesWord
    ["latest", "recent", "current", "now", "today", "still", "update", "updated",
      "new", "2025", "2026"] s

/-- `_SPECIFIC_TOPIC_RE` of `intent_resolver` (the summarize-to-inquire
override heuristic). -/
def specificTopicMatch (s : String) : Bool :=
  matchesWord
    ["what", "how", "when", "where", "why", "which", "does", "is", "are", "can",
      "explain", "tell me",
      "requirement", "requirements", "provision", "provisions", "rule", "rules",
      "limit", "limits", "threshold", "thresholds", "definition", "definitions",
      "section", "sections", "clause", "clauses", "article", "articles"] s

/-! ### TipTap rich-text tree and the Stage-1 walker of `doc_resolver` -/

/-- A TipTap JSON node: `{"type": ..., "attrs": {...}, "text": ..., "content": [...]}`.
Missing keys are modelled by `""` / `[]`, the defaults the Python walker
supplies via `dict.get`. -/

inductive TipTap where
  | node (ty : String) (attrs : List (String × String)) (text : String)
      (content : List TipTap)
deriving Repr

mutual

/-- The recursive `_walk` of `_walk_tiptap`: accumulates `{uuid: label}`
document mentions (dict insertion semantics) and the plain-text runs.
A `mention` node is consumed without recursing; any other node contributes
its text (when of type `text`) and then its children, depth first. -/
def walkNode (acc : List (String × String) × List String) :
    TipTap → List (String × String) × List String
  | .node ty attrs text content =>
    if ty = "mention" then
      if alookup attrs "category" = some "document" ∧ (alookup attrs "id").getD "" ≠ "" then
        (upsert acc.1 ((alookup attrs "id").getD "")
          ((alookup attrs "label").getD ((alookup attrs "id").getD "")), acc.2)
      else acc
    else
      walkNodes (if ty = "text" then (acc.1, acc.2 ++ [text]) else acc) content

def walkNodes (acc : List (String × String) × List String) :
    List TipTap → List (String × String) × List String
  | [] => acc
  | t :: rest => walkNodes (walkNode acc t) rest

end

def joinStr (l : List String) : String := ⟨(l.map String.data).flatten⟩

/-- `_walk_tiptap`: returns the `{uuid: label}` mention dict and the
concatenated free text. -/
def walk_tiptap (t : TipTap) : List (String × String) × String :=
  let acc := walkNode ([], []) t
  (acc.1, joinStr acc.2)

/-! ### Doc Resolver (`app/graph/nodes/doc_resolver.py`)

External collaborators are oracle inputs: `resolution` is the structured
output of the Stage-2 classification call, `all_docs` the `(id, title)` rows
the Stage-3 Supabase fetch would return, and `scorer` the rapidfuzz WRatio
scorer (a 0–100 score).  The Stage-1c context-scope decision is not modelled
separately: it only selects which prior turns are included in the prompt of
the classification oracle. -/

/-- Structured output schema of the Stage-2 classification call. -/

structure DocResolution where
  resolved_uuids : List String
  unresolved_names : List String
  inference_confidence : Conf
  has_implicit_refs : Bool
  reasoning : String
deriving DecidableEq, Repr

/-- The partial state update written by `doc_resolver` (all keys the node
returns; `response` / `new_messages` are only populated on the cancel
short-circuit). -/
structure DocUpdate where
  resolved_doc_ids : List String
  inference_source : String
  inference_confidence : Conf
  has_implicit_refs : Bool
  inferred_doc_ids : List String
  unresolved_names : List String
  inference_reasoning : String
  suggested_doc_ids : List String
  clean_query : String
  resolved_doc_titles : List (String × String)
  response : Option String
  new_messages : List Msg
deriving DecidableEq, Repr

/-- Everything one `doc_resolver` pass reads: the state fields plus the
oracle results of its external calls plus the resume slot (`none` on a
first pass; `some v` when the pass re-runs after an interrupt). -/
structure DocInput where
  tiptap : TipTap
  conversation_docs : List (String × String)
  action : String
  user_id : String
  messages : List Msg
  explicit_doc_ids : List String
  resolution : DocResolution
  all_docs : List (String × String)
  scorer : String → String → ℚ
  pending : Option RVal

def doc_mentionsOf (inp : DocInput) : List (String × String) := (walk_tiptap inp.tiptap).1

def free_textOf (inp : DocInput) : String := (walk_tiptap inp.tiptap).2

/-- `explicit_uuids`, with the fallback to the state's `explicit_doc_ids`
when the TipTap walk found no mentions. -/
def explicit_uuidsOf (inp : DocInput) : List String :=
  if keysOf (doc_mentionsOf inp) = [] ∧ inp.explicit_doc_ids ≠ [] then inp.explicit_doc_ids
  else keysOf (doc_mentionsOf inp)

/-- `_is_pure_mention(free_text)`: no meaningful free text. -/
def pureMentionShortcut (inp : DocInput) : Prop :=
  pyStrip (free_textOf inp) = "" ∧ explicit_uuidsOf inp ≠ []

instance (inp : DocInput) : Decidable (pureMentionShortcut inp) := by
  unfold pureMentionShortcut; infer_instance

/-- `known_uuids = set(conversation_docs.values()) | set(explicit_uuids)`
(membership in this list models membership in the Python set). -/
def known_uuidsOf (inp : DocInput) : List String :=
  inp.conversation_docs.map Prod.snd ++ explicit_uuidsOf inp

/-- The anti-hallucination filter over the classifier result. -/
def validated_llm_uuidsOf (inp : DocInput) : List String :=
  inp.resolution.resolved_uuids.filter (fun uid => decide (uid ∈ known_uuidsOf inp))

/-- `process.extractOne(name, titles, scorer=...)`: best score, first wins
on ties. -/
def extractOne (scorer : String → String → ℚ) (q : String) :
    List String → Option (String × ℚ)
  | [] => none
  | t :: ts =>
    some (ts.foldl (fun best c => if scorer q c > best.2 then (c, scorer q c) else best)
      (t, scorer q t))

/-- `_fuzzy_match`: returns `(matched_uuids, still_unresolved)`; a name is
accepted when its best title score reaches the threshold 85. -/
def fuzzy_match (scorer : String → String → ℚ) (unresolved : List String)
    (all_docs : List (String × String)) : List String × List String :=
  if all_docs = [] ∨ unresolved = [] then ([], unresolved)
  else
    let titles := all_docs.map Prod.snd
    let title_to_uuid := all_docs.foldl (fun acc d => upsert acc d.2 d.1) []
    unresolved.foldl
      (fun (acc : List String × List String) name =>
        match extractOne scorer name titles with
        | some (t, sc) =>
          if sc ≥ 85 then (acc.1 ++ [(alookup title_to_uuid t).getD ""], acc.2)
          else (acc.1, acc.2 ++ [name])
        | none => (acc.1, acc.2 ++ [name]))
      ([], [])

/-- Whether the Stage-3 fuzzy block runs
(`if remaining_unresolved and user_id`). -/
def runsFuzzyOf (inp : DocInput) : Prop :=
  inp.resolution.unresolved_names ≠ [] ∧ inp.user_id ≠ ""

instance (inp : DocInput) : Decidable (runsFuzzyOf inp) := by
  unfold runsFuzzyOf; infer_instance

def fuzzyPairOf (inp : DocInput) : List String × List String :=
  if runsFuzzyOf inp then fuzzy_match inp.scorer inp.resolution.unresolved_names inp.all_docs
  else ([], inp.resolution.unresolved_names)

def fuzzy_uuidsOf (inp : DocInput) : List String := (fuzzyPairOf inp).1

def remaining_unresolvedOf (inp : DocInput) : List String := (fuzzyPairOf inp).2

/-- `merged_uuids` after Stage 2: explicit then validated classifier ids,
first-seen deduplicated. -/
def mergedNoFuzzyOf (inp : DocInput) : List String :=
  dedupFirst (explicit_uuidsOf inp ++ validated_llm_uuidsOf inp)

/-- `merged_uuids` after the Stage-3 fuzzy block. -/
def merged_uuidsOf (inp : DocInput) : List String :=
  if fuzzy_uuidsOf inp ≠ [] then dedupFirst (mergedNoFuzzyOf inp ++ fuzzy_uuidsOf inp)
  else mergedNoFuzzyOf inp

def inference_sourceOf (inp : DocInput) : String :=
  if fuzzy_uuidsOf inp ≠ [] then "fuzzy_match"
  else if validated_llm_uuidsOf inp ≠ [] ∨ explicit_uuidsOf inp = [] then "inferred"
  else "explicit"

/-- `all_docs` as visible to the title map: `[]` unless the fuzzy block ran. -/
def all_docs_usedOf (inp : DocInput) : List (String × String) :=
  if runsFuzzyOf inp then inp.all_docs else []

/-- `_uuid_to_title = {v: k for k, v in conversation_docs.items()}`. -/
def uuid_to_titleOf (inp : DocInput) : List (String × String) :=
  inp.conversation_docs.foldl (fun acc p => upsert acc p.2 p.1) []

/-- `_fuzzy_titles = {d["id"]: d["title"] for d in all_docs}`. -/
def fuzzy_titlesOf (inp : DocInput) : List (String × String) :=
  (all_docs_usedOf inp).foldl (fun acc d => upsert acc d.1 d.2) []

/-- `resolved_doc_titles` with the title-priority chain
(TipTap label `or` registry title `or` fuzzy title `or` the uuid itself). -/
def resolved_doc_titlesOf (inp : DocInput) : List (String × String) :=
  (merged_uuidsOf inp).map (fun uid =>
    (uid, strOr (alookup (doc_mentionsOf inp) uid)
      (strOr (alookup (uuid_to_titleOf inp) uid)
        (strOr (alookup (fuzzy_titlesOf inp) uid) uid))))

def suggested_doc_idsOf (inp : DocInput) : List String :=
  if inp.resolution.inference_confidence ≠ .high then validated_llm_uuidsOf inp else []

/-- The `base_result` dict shared by the normal path and the resume paths. -/
def base_resultOf (inp : DocInput) : DocUpdate :=
  { resolved_doc_ids := merged_uuidsOf inp
    inference_source := inference_sourceOf inp
    inference_confidence := inp.resolution.inference_confidence
    has_implicit_refs := inp.resolution.has_implicit_refs
    inferred_doc_ids := validated_llm_uuidsOf inp
    unresolved_names := remaining_unresolvedOf inp
    inference_reasoning := inp.resolution.reasoning
    suggested_doc_ids := suggested_doc_idsOf inp
    clean_query := pyStrip (free_textOf inp)
    resolved_doc_titles := resolved_doc_titlesOf inp
    response := none
    new_messages := [] }

/-- The immediate return of the Stage-1b pure-mention shortcut. -/
def pure_mention_resultOf (inp : DocInput) : DocUpdate :=
  { resolved_doc_ids := explicit_uuidsOf inp
    inference_source := "explicit"
    inference_confidence := .high
    has_implicit_refs := false
    inferred_doc_ids := []
    unresolved_names := []
    inference_reasoning := "All documents explicitly @mentioned, no free text."
    suggested_doc_ids := []
    clean_query := ""
    resolved_doc_titles := doc_mentionsOf inp
    response := none
    new_messages := [] }

def action_verbOf (a : String) : String :=
  if a = "summarize" then "summarize"
  else if a = "compare" then "compare"
  else if a = "audit" then "audit against"
  else if a = "inquire" then "query"
  else "use"

def cancelDocMsgOf (a : String) : String :=
  "I can\x27t proceed with " ++ pyCapitalize a ++
    " without a specific document. Please @tag a document and try again for optimal results."

/-- Options of the `doc_choice` interrupt: one per suggested id (label
preferred) plus the `all` option. -/
def doc_choice_optionsOf (inp : DocInput) : List ChoiceItem :=
  (suggested_doc_idsOf inp).map (fun uid =>
    ⟨uid, strOr (alookup (doc_mentionsOf inp) uid)
      (strOr (alookup (uuid_to_titleOf inp) uid) uid)⟩)
  ++ [⟨"all", "All of these"⟩]

/-- Gate-1 firing condition (medium confidence with candidate docs). -/
def docChoiceGate (inp : DocInput) : Prop :=
  inp.resolution.inference_confidence = .medium ∧ suggested_doc_idsOf inp ≠ []

instance (inp : DocInput) : Decidable (docChoiceGate inp) := by
  unfold docChoiceGate; infer_instance

/-- Gate-2 firing condition (low confidence, names left unresolved, nothing
resolved at all). -/
def tagRequestGate (inp : DocInput) : Prop :=
  inp.resolution.inference_confidence = .low ∧ remaining_unresolvedOf inp ≠ [] ∧
    merged_uuidsOf inp = []

instance (inp : DocInput) : Decidable (tagRequestGate inp) := by
  unfold tagRequestGate; infer_instance

/-- The `doc_resolver` node.  The second component counts the classification
calls made by the pass. -/
def doc_resolver (inp : DocInput) : Outcome DocUpdate × Nat :=
  if pureMentionShortcut inp then (.update (pure_mention_resultOf inp), 0)
  else
    let base := base_resultOf inp
    if docChoiceGate inp then
      match inp.pending with
      | none =>
        (.suspend ⟨"doc_choice",
          "Which document would you like to " ++ action_verbOf inp.action ++ "?",
          some (doc_choice_optionsOf inp)⟩, 1)
      | some .null | some .cancel =>
        (.goto { base with
            inference_confidence := .low
            response := some (cancelDocMsgOf inp.action)
            new_messages := [.ai (cancelDocMsgOf inp.action)] } "format_response", 1)
      | some (.str v) =>
        if v = "all" then
          (.update { base with
            resolved_doc_ids := dedupFirst (merged_uuidsOf inp ++ suggested_doc_idsOf inp)
            inference_confidence := .high }, 1)
        else
          (.update { base with
            resolved_doc_ids := dedupFirst (merged_uuidsOf inp ++ [v])
            inference_confidence := .high }, 1)
    else if tagRequestGate inp then
      match inp.pending with
      | none =>
        (.suspend ⟨"text_input",
          "I couldn\x27t find the document you\x27re referring to. Please @tag the document you\x27d like to use.",
          none⟩, 1)
      | some .null | some .cancel =>
        (.goto { base with
            inference_confidence := .low
            response := some (cancelDocMsgOf inp.action)
            new_messages := [.ai (cancelDocMsgOf inp.action)] } "format_response", 1)
      | some (.str v) =>
        if isValidUUID v then
          (.update { base with
            resolved_doc_ids := dedupFirst (merged_uuidsOf inp ++ [v])
            inference_confidence := .high }, 1)
        else
          (.update { base with inference_confidence := .low }, 1)
    else (.update base, 1)

/-! ### Validate Inputs (`app/graph/nodes/validate_inputs.py`) -/

/-- The partial state update written by `validate_inputs`.  `none` on a
field means the key is absent from the returned dict (state unchanged). -/

structure VUpdate where
  resolved_doc_ids : Option (List String)
  enable_web_search : Option Bool
  new_messages : List Msg
  response : Option String
deriving DecidableEq, Repr

def emptyVUpdate : VUpdate :=
  { resolved_doc_ids := none, enable_web_search := none, new_messages := [], response := none }

/-- Everything one `validate_inputs` pass reads; `set_docs` is the oracle
result of the `_fetch_set_doc_ids` Supabase call. -/
structure VInput where
  action : String
  resolved_doc_ids : List String
  enable_web_search : Bool
  set_id : Option String
  user_id : String
  messages : List Msg
  set_docs : List String
  pending : Option RVal

/-- `_DOC_REQUIREMENTS.get(action, 0)`. -/
def DOC_REQUIREMENTS (a : String) : Nat :=
  if a = "summarize" then 1
  else if a = "inquire" then 0
  else if a = "compare" then 2
  else if a = "audit" then 1
  else 0

/-- `_is_audit_text_missing`: latest human message with `@word` tokens
stripped is shorter than 50 characters (`True` when there is none). -/
def is_audit_text_missing (msgs : List Msg) : Bool :=
  match lastHumanText msgs with
  | some c => decide ((pyStrip (stripAts c)).data.length < 50)
  | none => true

/-- Python truthiness of an optional string (`None` and `""` are falsy). -/
def pyTruthyStrOpt : Option String → Bool
  | none => false
  | some s => s != ""

def gate1MsgOf (a : String) : String :=
  if a = "compare" then
    "Compare requires at least 2 documents. Please @tag the additional document."
  else if a = "summarize" then
    "Please @tag the document you\x27d like to summarize."
  else
    "Please @tag the regulation document you\x27d like to audit against."

def gate1CancelMsgOf (a : String) : String :=
  if a = "compare" then
    "Compare requires at least 2 documents. Please @tag them and try again."
  else if a = "summarize" then
    "I need a document to summarize. Please @tag a document and try again."
  else
    "I need a regulation document to run " ++ pyCapitalize a ++ ". Please @tag one and try again."

def auditGateMsg : String :=
  "Please enter the text you\x27d like to audit (e.g. an email or policy excerpt)."

def auditCancelMsg : String :=
  "I need the text you\x27d like to audit. Please include it in your next message along with a @tagged regulation document."

/-- Whether the set-expansion block changes `resolved_doc_ids`. -/
def setExpansionRuns (inp : VInput) : Prop :=
  (pyTruthyStrOpt inp.set_id ∧ inp.user_id ≠ "") ∧ inp.set_docs ≠ []

instance (inp : VInput) : Decidable (setExpansionRuns inp) := by
  unfold setExpansionRuns; infer_instance

/-- `resolved_doc_ids` after the set-expansion block. -/
def expandedResolvedOf (inp : VInput) : List String :=
  if setExpansionRuns inp then dedupFirst (inp.resolved_doc_ids ++ inp.set_docs)
  else inp.resolved_doc_ids

/-- The `result` dict just before the gates (set expansion plus the
compare web-search cleanup). -/
def preGateResultOf (inp : VInput) : VUpdate :=
  let r1 :=
    if setExpansionRuns inp ∧ expandedResolvedOf inp ≠ inp.resolved_doc_ids then
      { emptyVUpdate with resolved_doc_ids := some (expandedResolvedOf inp) }
    else emptyVUpdate
  if inp.action = "compare" ∧ inp.enable_web_search then
    { r1 with enable_web_search := some false }
  else r1

/-- Gate-1 firing condition: not enough documents for the action. -/
def countGate (inp : VInput) : Prop :=
  (expandedResolvedOf inp).length < DOC_REQUIREMENTS inp.action

instance (inp : VInput) : Decidable (countGate inp) := by
  unfold countGate; infer_instance

/-- Gate-2 firing condition (an `elif`: only reached when the count gate
did not fire): audit with no meaningful source text. -/
def auditTextGate (inp : VInput) : Prop :=
  inp.action = "audit" ∧ is_audit_text_missing inp.messages = true

instance (inp : VInput) : Decidable (auditTextGate inp) := by
  unfold auditTextGate; infer_instance

/-- The `validate_inputs` node. -/
def validate_inputs (inp : VInput) : Outcome VUpdate :=
  let resolved := expandedResolvedOf inp
  let r2 := preGateResultOf inp
  if countGate inp then
    match inp.pending with
    | none => .suspend ⟨"text_input", gate1MsgOf inp.action, none⟩
    | some (.str v) =>
      if isValidUUID v then
        .update { r2 with resolved_doc_ids := some (dedupFirst (resolved ++ [v])) }
      else .update r2
    | some .null | some .cancel =>
      .goto { r2 with
        response := some (gate1CancelMsgOf inp.action)
        new_messages := [.ai (gate1CancelMsgOf inp.action)] } "format_response"
  else if auditTextGate inp then
    match inp.pending with
    | none => .suspend ⟨"text_input", auditGateMsg, none⟩
    | some (.str v) => .update { r2 with new_messages := [.human v] }
    | some .null | some .cancel =>
      .goto { r2 with
        response := some auditCancelMsg
        new_messages := [.ai auditCancelMsg] } "format_response"
  else .update r2

/-- The `add_messages` reducer for messages carrying fresh ids: append. -/
def applyMessages (hist upd : List Msg) : List Msg := hist ++ upd

/-! ### Response Formatter (`app/graph/nodes/format_response.py`) -/

/-- What one `format_response` pass reads; `fetched_pairs` is the oracle
result of `_fetch_doc_titles(resolved_doc_ids)`, a `{title: id}` dict. -/

structure FmtInput where
  resolved_doc_ids : List String
  conversation_docs : List (String × String)
  messages : List Msg
  fetched_pairs : List (String × String)

/-- The update written by `format_response`: the merged registry and,
when an assistant message exists, the same-id replacement that would carry
the metadata (`stamped`; the metadata fields themselves are transport
payload, not read by any node). -/
structure FmtUpdate where
  conversation_docs : List (String × String)
  stamped : Option Msg
deriving DecidableEq, Repr

def lastAiMsg : List Msg → Option Msg
  | [] => none
  | m :: rest =>
    match lastAiMsg rest with
    | some s => some s
    | none => match m with
      | .ai c => some (.ai c)
      | _ => none

/-- The `format_response` node: merge `{**existing_registry, **new_pairs}`
and stamp the last assistant message when present. -/
def format_response (inp : FmtInput) : FmtUpdate :=
  { conversation_docs := dictMerge inp.conversation_docs inp.fetched_pairs
    stamped := lastAiMsg inp.messages }

/-! ### Intent Resolver (`app/graph/nodes/intent_resolver.py`) -/

/-- Structured output schema of the intent classification call (the
`parsed` payload of a structured call). -/
structure IntentClassification where
  action : String
  confidence : Conf
  enable_web_search : Bool
  multi_action_detected : Bool
  detected_actions : List String
  reasoning : String
deriving DecidableEq, Repr

/-- Return value of `LLMService.invoke_structured`: the NamedTuple
`LLMResult(parsed, tokens_used, cost_usd)`.  `doc_resolver`
(doc_resolver.py:328) unwraps `.parsed` at its call site, so the
`doc_resolver` model receives the payload directly; `intent_resolver`
(intent_resolver.py:140, 154) binds this record itself. -/
structure LLMResult where
  parsed : IntentClassification
  tokens_used : Nat
  cost_usd : ℚ
deriving DecidableEq, Repr

/-- A raised Python exception, for the fallible paths of the embedding. -/
structure PyError where
  kind : String
  message : String
deriving DecidableEq, Repr

/-- What one `intent_resolver` pass reads; `pass1` / `pass2` are the oracle
results of the first (latest-message-only) and second (5-message-context)
classification calls — the un-unwrapped `LLMResult` values the node binds. -/
structure IntentInput where
  messages : List Msg
  frontend_action : String
  frontend_web : Bool
  pass1 : LLMResult
  pass2 : LLMResult
  pending : Option RVal

/-- The partial state update written by `intent_resolver` (`none` fields
are keys absent from the returned dict). -/
structure IntentUpdate where
  action : Option String
  enable_web_search : Option Bool
  response : Option String
  new_messages : List Msg
deriving DecidableEq, Repr

def lastMessageTextOf (inp : IntentInput) : String := (lastHumanText inp.messages).getD ""

/-- The `intent_resolver` node as frozen in the source.  The explicit
caller-action path (Step 0) returns before any classification.  On every
other turn the node makes the pass-1 call, binds the whole `LLMResult`
without the `.parsed` unwrap every other call site uses, and the first
attribute access — `classification.action`, an eagerly evaluated argument
of the pass-1 log call at intent_resolver.py:144 — raises
`AttributeError`, aborting the node before the pass-2 escalation, the
summarize-to-inquire override (Step 4) and both interrupt gates.  The
second component counts classification calls made before the node returns
or raises. -/
def intent_resolver (inp : IntentInput) :
    Except PyError (Outcome IntentUpdate) × Nat :=
  let kw := temporalMatch (lastMessageTextOf inp)
  if inp.frontend_action ≠ "" then
    (.ok (.update { action := some inp.frontend_action
                    enable_web_search := some (inp.frontend_web || kw)
                    response := none, new_messages := [] }), 0)
  else
    (.error ⟨"AttributeError",
      "\x27LLMResult\x27 object has no attribute \x27action\x27"⟩, 1)

/-! ### Resume endpoint (`app/routers/chat.py`, `resume_chat`) -/

structure HttpError where
  status : Nat
  detail : String
deriving DecidableEq, Repr

/-- The persisted snapshot of one thread, as the endpoint sees it: the
pending interrupt tuples of the checkpoint tasks, plus the persisted
pipeline-state key-value snapshot. -/
structure ThreadSnapshot where
  tasks : List (List InterruptPayload)
  store : List (String × String)
deriving DecidableEq, Repr

/-- `any(getattr(task, "interrupts", ()) for task in state.tasks)`. -/
def hasPendingInterrupt (t : ThreadSnapshot) : Bool :=
  t.tasks.any (fun ints => !ints.isEmpty)

/-- `POST /chat/resume`.  `step` is the graph-streaming continuation that a
successful validation hands the mapped resume value to (it is the only part
of the handler that can mutate the thread); every check happens before it
runs.  A `None` resume value is mapped to the cancel sentinel. -/
def resume_chat (step : ThreadSnapshot → RVal → ThreadSnapshot)
    (st : ThreadSnapshot) (user_id thread_id : String) (resumeValue : Option String) :
    Except HttpError Unit × ThreadSnapshot :=
  if ¬ isValidUUID user_id then (.error ⟨400, "Invalid user_id format"⟩, st)
  else if ¬ isValidUUID thread_id then (.error ⟨400, "Invalid thread_id format"⟩, st)
  else if ¬ hasPendingInterrupt st then
    (.error ⟨400, "No pending action to resume for this conversation."⟩, st)
  else
    (.ok (), step st (match resumeValue with | none => RVal.cancel | some v => RVal.str v))

/-- The three resolution stages in pipeline order: explicit tags, then
validated classifier ids, then fuzzy matches. -/
def stageConcatOf (inp : DocInput) : List String :=
  explicit_uuidsOf inp ++ validated_llm_uuidsOf inp ++ fuzzy_uuidsOf inp

/-! ### Concrete fixtures used by witnesses and counterexamples -/

def mkMention (uid label : String) : TipTap :=
  .node "mention" [("category", "document"), ("id", uid), ("label", label)] "" []

def mkText (s : String) : TipTap := .node "text" [] s []

def mkDoc (children : List TipTap) : TipTap := .node "doc" [] "" children

/-- A concrete scorer: 100 on equal strings, 0 otherwise (rapidfuzz WRatio
scores identical strings 100). -/
def exactScorer : String → String → ℚ := fun a b => if a = b then 100 else 0

def emptyResolution : DocResolution :=
  { resolved_uuids := []
    unresolved_names := []
    inference_confidence := .high
    has_implicit_refs := false
    reasoning := "" }

/-- A turn whose TipTap payload is empty while the state carries a
duplicated explicit id list (reachable: `tagged_doc_ids` of the chat
request is forwarded unvalidated). -/
def dupExplicitInput : DocInput :=
  { tiptap := mkDoc []
    conversation_docs := []
    action := "inquire"
    user_id := "u"
    messages := []
    explicit_doc_ids := ["a", "a"]
    resolution := emptyResolution
    all_docs := []
    scorer := exactScorer
    pending := none }

/-- A run where the classifier hallucinates an id outside the known set,
while the same id is the id of a user document whose title fuzzy-matches an
unresolved name. -/
def hallucinatedFuzzyInput : DocInput :=
  { tiptap := mkDoc [mkText "compare Foo please"]
    conversation_docs := []
    action := "inquire"
    user_id := "u"
    messages := []
    explicit_doc_ids := []
    resolution :=
      { resolved_uuids := ["11111111-1111-1111-1111-111111111111"]
        unresolved_names := ["Foo"]
        inference_confidence := .high
        has_implicit_refs := true
        reasoning := "r" }
    all_docs := [("11111111-1111-1111-1111-111111111111", "Foo")]
    scorer := exactScorer
    pending := none }

/-- A run where the classifier returns an unknown id and nothing else: the
id is dropped and the resolved set stays empty. -/
def droppedHallucinationInput : DocInput :=
  { tiptap := mkDoc [mkText "tell me about the regulation"]
    conversation_docs := [("Reg", "r1")]
    action := "inquire"
    user_id := ""
    messages := []
    explicit_doc_ids := []
    resolution :=
      { resolved_uuids := ["bad"]
        unresolved_names := []
        inference_confidence := .high
        has_implicit_refs := true
        reasoning := "r" }
    all_docs := []
    scorer := exactScorer
    pending := none }

/-- A pure-mention turn: one document tag and only whitespace text.  The
oracle fields deliberately carry junk that the shortcut must ignore. -/
def pureMentionInput : DocInput :=
  { tiptap := mkDoc [mkMention "11111111-1111-1111-1111-111111111111" "Policy X", mkText "  "]
    conversation_docs := []
    action := "summarize"
    user_id := "u"
    messages := []
    explicit_doc_ids := []
    resolution :=
      { resolved_uuids := ["junk"]
        unresolved_names := ["x"]
        inference_confidence := .low
        has_implicit_refs := true
        reasoning := "r" }
    all_docs := [("z", "x")]
    scorer := exactScorer
    pending := none }

/-- The medium-confidence scenario with two suggested ids `d1`, `d2`. -/
def mediumChoiceInput : DocInput :=
  { tiptap := mkDoc [mkText "compare the two policies"]
    conversation_docs := [("Policy One", "d1"), ("Policy Two", "d2")]
    action := "compare"
    user_id := "u"
    messages := []
    explicit_doc_ids := []
    resolution :=
      { resolved_uuids := ["d1", "d2"]
        unresolved_names := []
        inference_confidence := .medium
        has_implicit_refs := true
        reasoning := "r" }
    all_docs := []
    scorer := exactScorer
    pending := none }

/-- A medium-confidence run resumed with a value that is not a UUID, not
one of the offered options and not in the known-id set. -/
def looseResumeInput : DocInput :=
  { tiptap := mkDoc [mkText "compare the two policies"]
    conversation_docs := [("Policy One", "d1"), ("Policy Two", "d2")]
    action := "compare"
    user_id := "u"
    messages := []
    explicit_doc_ids := []
    resolution :=
      { resolved_uuids := ["d1", "d2"]
        unresolved_names := []
        inference_confidence := .medium
        has_implicit_refs := true
        reasoning := "r" }
    all_docs := []
    scorer := exactScorer
    pending := some (.str "not-a-uuid") }

/-- A low-confidence run with an unresolved name, resumed with a non-UUID
value on the `text_input` gate. -/
def strictTagInput : DocInput :=
  { tiptap := mkDoc [mkText "about that doc"]
    conversation_docs := [("P", "p1")]
    action := "inquire"
    user_id := ""
    messages := []
    explicit_doc_ids := []
    resolution :=
      { resolved_uuids := []
        unresolved_names := ["that doc"]
        inference_confidence := .low
        has_implicit_refs := false
        reasoning := "r" }
    all_docs := []
    scorer := exactScorer
    pending := some (.str "not-a-uuid") }

/-- The comparison-with-one-document scenario of the Validation Gate. -/
def compareOneDocInput : VInput :=
  { action := "compare"
    resolved_doc_ids := ["d0"]
    enable_web_search := true
    set_id := none
    user_id := "u"
    messages := [.human "compare @Doc1 with the web"]
    set_docs := []
    pending := none }

/-- The count gate of `validate_inputs` resumed with a non-UUID value. -/
def countGateResumeInput : VInput :=
  { action := "compare"
    resolved_doc_ids := ["d0"]
    enable_web_search := false
    set_id := none
    user_id := "u"
    messages := []
    set_docs := []
    pending := some (.str "not-a-uuid") }

/-- The audit-with-tag-only-message scenario. -/
def auditTagOnlyInput : VInput :=
  { action := "audit"
    resolved_doc_ids := ["r1"]
    enable_web_search := false
    set_id := none
    user_id := "u"
    messages := [.human "@PolicyX"]
    set_docs := []
    pending := none }

def sampleAuditText : String := "We require quarterly risk reports."

/-- A thread snapshot with no pending interrupt in any task. -/
def idleSnapshot : ThreadSnapshot := { tasks := [[], []], store := [("k", "v")] }

/-- A thread snapshot with one pending interrupt. -/
def pendingSnapshot : ThreadSnapshot :=
  { tasks := [[⟨"text_input", "m", none⟩]], store := [("k", "v")] }

/-- A maximally destructive graph continuation: if it ran, the change would
be visible. -/
def wipeStep : ThreadSnapshot → RVal → ThreadSnapshot :=
  fun _ _ => { tasks := [], store := [] }

def uuidA : String := "11111111-1111-1111-1111-111111111111"

def uuidB : String := "22222222-2222-2222-2222-222222222222"

/-- A well-formed pass result: a broad-summary classification wrapped in
the `LLMResult` NamedTuple, exactly as `invoke_structured` returns it. -/
def summarizeLLMResult : LLMResult :=
  { parsed :=
      { action := "summarize"
        confidence := .high
        enable_web_search := false
        multi_action_detected := false
        detected_actions := ["summarize"]
        reasoning := "r" }
    tokens_used := 100
    cost_usd := 0 }

/-- The override scenario of the spec: a specific-question turn classified
as broad summary, no explicit caller action — the turn on which the frozen
node aborts instead of applying the override. -/
def specificSummarizeInput : IntentInput :=
  { messages := [.human "Summarize the capital requirements in the policy"]
    frontend_action := ""
    frontend_web := false
    pass1 := summarizeLLMResult
    pass2 := summarizeLLMResult
    pending := none }

/-- A caller-supplied explicit action: classification is skipped. -/
def explicitActionInput : IntentInput :=
  { messages := [.human "Summarize what is here"]
    frontend_action := "audit"
    frontend_web := false
    pass1 := summarizeLLMResult
    pass2 := summarizeLLMResult
    pending := none }

/-- The rename-merge example of the spec. -/
def renameMergeInput : FmtInput :=
  { resolved_doc_ids := ["id2", "id3"]
    conversation_docs := [("Policy A", "id1")]
    messages := []
    fetched_pairs := [("Policy A", "id2"), ("Policy B", "id3")] }

/-! ## Theorems -/

theorem lastHumanText_append_human (h : List Msg) (c : String) :
    lastHumanText (h ++ [Msg.human c]) = some c := by
  induction h with
  | nil => rfl
  | cons m rest ih => simp [lastHumanText, ih]

theorem mem_dedupFirstAux {a : String} :
    ∀ (l seen : List String), a ∈ dedupFirstAux seen l ↔ a ∈ l ∧ a ∉ seen := by
  intro l
  induction l with
  | nil => intro seen; simp [dedupFirstAux]
  | cons x xs ih =>
    intro seen
    by_cases hx : x ∈ seen
    · rw [dedupFirstAux, if_pos hx, ih]
      simp only [List.mem_cons]
      constructor
      · rintro ⟨h1, h2⟩; exact ⟨Or.inr h1, h2⟩
      · rintro ⟨h1 | h1, h2⟩
        · exact absurd (h1 ▸ hx) h2
        · exact ⟨h1, h2⟩
    · rw [dedupFirstAux, if_neg hx]
      by_cases hax : a = x
      · subst hax; simp [hx]
      · simp only [List.mem_cons, hax, false_or, ih (a :: seen)]
        simp [ih (x :: seen), hax]

theorem mem_dedupFirst {a : String} (l : List String) :
    a ∈ dedupFirst l ↔ a ∈ l := by
  simp [dedupFirst, mem_dedupFirstAux]

theorem nodup_dedupFirstAux : ∀ (l seen : List String), (dedupFirstAux seen l).Nodup := by
  intro l
  induction l with
  | nil => intro seen; simp [dedupFirstAux]
  | cons x xs ih =>
    intro seen
    by_cases hx : x ∈ seen
    · rw [dedupFirstAux, if_pos hx]; exact ih seen
    · rw [dedupFirstAux, if_neg hx]
      refine List.nodup_cons.mpr ⟨?_, ih (x :: seen)⟩
      intro hmem
      exact ((mem_dedupFirstAux _ _).mp hmem).2 (List.mem_cons_self x seen)

theorem nodup_dedupFirst (l : List String) : (dedupFirst l).Nodup :=
  nodup_dedupFirstAux l []

theorem dedupFirstAux_congr :
    ∀ (l s₁ s₂ : List String), (∀ x, x ∈ s₁ ↔ x ∈ s₂) →
      dedupFirstAux s₁ l = dedupFirstAux s₂ l := by
  intro l
  induction l with
  | nil => intro s₁ s₂ _; rfl
  | cons x xs ih =>
    intro s₁ s₂ h
    by_cases hx : x ∈ s₁
    · rw [dedupFirstAux, if_pos hx, dedupFirstAux, if_pos ((h x).mp hx)]
      exact ih _ _ h
    · rw [dedupFirstAux, if_neg hx, dedupFirstAux, if_neg (fun hc => hx ((h x).mpr hc))]
      congr 1
      exact ih _ _ (fun y => by simp only [List.mem_cons, h y])

theorem dedupFirstAux_append :
    ∀ (a seen b : List String),
      dedupFirstAux seen (a ++ b) = dedupFirstAux seen a ++ dedupFirstAux (a ++ seen) b := by
  intro a
  induction a with
  | nil => intro seen b; simp [dedupFirstAux]
  | cons x a' ih =>
    intro seen b
    by_cases hx : x ∈ seen
    · rw [List.cons_append, dedupFirstAux, if_pos hx, ih, dedupFirstAux, if_pos hx]
      congr 1
      apply dedupFirstAux_congr
      intro y
      by_cases hyx : y = x <;> simp [List.mem_append, List.mem_cons, hyx, hx]
    · rw [List.cons_append, dedupFirstAux, if_neg hx, dedupFirstAux, if_neg hx,
        ih (x :: seen) b, List.cons_append]
      congr 2
      apply dedupFirstAux_congr
      intro y
      constructor
      · intro hy
        rcases List.mem_append.mp hy with h1 | h1
        · exact List.mem_cons.mpr (Or.inr (List.mem_append.mpr (Or.inl h1)))
        · rcases List.mem_cons.mp h1 with h2 | h2
          · exact List.mem_cons.mpr (Or.inl h2)
          · exact List.mem_cons.mpr (Or.inr (List.mem_append.mpr (Or.inr h2)))
      · intro hy
        rcases List.mem_cons.mp hy with h1 | h1
        · exact List.mem_append.mpr (Or.inr (List.mem_cons.mpr (Or.inl h1)))
        · rcases List.mem_append.mp h1 with h2 | h2
          · exact List.mem_append.mpr (Or.inl h2)
          · exact List.mem_append.mpr (Or.inr (List.mem_cons.mpr (Or.inr h2)))

theorem dedupFirstAux_eq_self :
    ∀ (l seen : List String), l.Nodup → (∀ x ∈ l, x ∉ seen) → dedupFirstAux seen l = l := by
  intro l
  induction l with
  | nil => intro seen _ _; rfl
  | cons x xs ih =>
    intro seen hnd hns
    rw [dedupFirstAux, if_neg (hns x (List.mem_cons_self x xs))]
    congr 1
    refine ih _ (List.nodup_cons.mp hnd).2 ?_
    intro y hy
    intro hc
    rcases List.mem_cons.mp hc with h1 | h1
    · exact (List.nodup_cons.mp hnd).1 (h1 ▸ hy)
    · exact hns y (List.mem_cons.mpr (Or.inr hy)) h1

/-- The two-step dedup performed by `doc_resolver`
(`list(dict.fromkeys(list(dict.fromkeys(a)) + b))`) is a single first-seen
dedup of `a ++ b`. -/
theorem dedupFirst_dedupFirst_append (a b : List String) :
    dedupFirst (dedupFirst a ++ b) = dedupFirst (a ++ b) := by
  unfold dedupFirst
  rw [dedupFirstAux_append, dedupFirstAux_append]
  congr 1
  · exact dedupFirstAux_eq_self _ _ (nodup_dedupFirstAux _ _) (fun x _ hx => (List.not_mem_nil x) hx)
  · apply dedupFirstAux_congr
    intro y
    simp [mem_dedupFirstAux]

/-- First-seen order: distinct elements of `dedupFirst l` appear in the order
of their first occurrences in `l` (`indexOf` is the first-occurrence index). -/
theorem pairwise_dedupFirstAux :
    ∀ (l seen : List String),
      (dedupFirstAux seen l).Pairwise (fun a b => l.indexOf a < l.indexOf b) := by
  intro l
  induction l with
  | nil => intro seen; simp [dedupFirstAux]
  | cons x xs ih =>
    intro seen
    by_cases hx : x ∈ seen
    · rw [dedupFirstAux, if_pos hx]
      refine (ih seen).imp_of_mem ?_
      intro a b ha hb hlt
      have hax : a ≠ x := fun h => ((mem_dedupFirstAux _ _).mp ha).2 (h ▸ hx)
      have hbx : b ≠ x := fun h => ((mem_dedupFirstAux _ _).mp hb).2 (h ▸ hx)
      rw [List.indexOf_cons_ne xs (fun h => hax h.symm),
        List.indexOf_cons_ne xs (fun h => hbx h.symm)]
      exact Nat.succ_lt_succ hlt
    · rw [dedupFirstAux, if_neg hx]
      refine List.Pairwise.cons ?_ ?_
      · intro b hb
        have hbx : b ≠ x := fun h =>
          ((mem_dedupFirstAux _ _).mp hb).2 (h ▸ List.mem_cons_self x seen)
        rw [List.indexOf_cons_self, List.indexOf_cons_ne xs (fun h => hbx h.symm)]
        exact Nat.succ_pos _
      · refine (ih (x :: seen)).imp_of_mem ?_
        intro a b ha hb hlt
        have hax : a ≠ x := fun h =>
          ((mem_dedupFirstAux _ _).mp ha).2 (h ▸ List.mem_cons_self x seen)
        have hbx : b ≠ x := fun h =>
          ((mem_dedupFirstAux _ _).mp hb).2 (h ▸ List.mem_cons_self x seen)
        rw [List.indexOf_cons_ne xs (fun h => hax h.symm),
          List.indexOf_cons_ne xs (fun h => hbx h.symm)]
        exact Nat.succ_lt_succ hlt

theorem pairwise_dedupFirst (l : List String) :
    (dedupFirst l).Pairwise (fun a b => l.indexOf a < l.indexOf b) :=
  pairwise_dedupFirstAux l []

theorem keysOf_upsert (d : List (String × String)) (k v : String) :
    keysOf (upsert d k v) = if k ∈ keysOf d then keysOf d else keysOf d ++ [k] := by
  induction d with
  | nil => simp [upsert, keysOf]
  | cons p rest ih =>
    obtain ⟨k₁, v₁⟩ := p
    by_cases h : k₁ = k
    · subst h; simp [upsert, keysOf]
    · rw [upsert, if_neg h]
      simp only [keysOf, List.map_cons] at ih ⊢
      by_cases hmem : k ∈ List.map Prod.fst rest
      · rw [ih, if_pos hmem, if_pos (List.mem_cons.mpr (Or.inr hmem))]
      · have hnc : k ∉ k₁ :: List.map Prod.fst rest := by
          intro hc
          rcases List.mem_cons.mp hc with h1 | h1
          · exact h h1.symm
          · exact hmem h1
        rw [ih, if_neg hmem, if_neg hnc]
        rfl

theorem mem_keysOf_upsert {k' : String} (d : List (String × String)) (k v : String)
    (h : k' ∈ keysOf d) : k' ∈ keysOf (upsert d k v) := by
  rw [keysOf_upsert]
  split
  · exact h
  · exact List.mem_append.mpr (Or.inl h)

theorem nodup_keysOf_upsert (d : List (String × String)) (k v : String)
    (h : (keysOf d).Nodup) : (keysOf (upsert d k v)).Nodup := by
  rw [keysOf_upsert]
  split
  · exact h
  · case isFalse hk =>
    refine List.Nodup.append h (List.nodup_singleton k) ?_
    intro a ha hb
    rw [List.mem_singleton] at hb
    exact hk (hb ▸ ha)

theorem alookup_upsert_self (d : List (String × String)) (k v : String) :
    alookup (upsert d k v) k = some v := by
  induction d with
  | nil => simp [upsert, alookup]
  | cons p rest ih =>
    obtain ⟨k₁, v₁⟩ := p
    by_cases h : k₁ = k
    · subst h; simp [upsert, alookup]
    · rw [upsert, if_neg h, alookup, if_neg h]; exact ih

theorem alookup_upsert_ne (d : List (String × String)) (k v : String) {k' : String}
    (h : k' ≠ k) : alookup (upsert d k v) k' = alookup d k' := by
  induction d with
  | nil => simp [upsert, alookup, Ne.symm h]
  | cons p rest ih =>
    obtain ⟨k₁, v₁⟩ := p
    by_cases h₁ : k₁ = k
    · subst h₁
      rw [upsert, if_pos rfl, alookup, alookup, if_neg (fun hc => h hc.symm),
        if_neg (fun hc => h hc.symm)]
    · rw [upsert, if_neg h₁, alookup, alookup]
      split
      · rfl
      · exact ih

theorem mem_keysOf_dictMerge_left {k : String} :
    ∀ (b a : List (String × String)), k ∈ keysOf a → k ∈ keysOf (dictMerge a b) := by
  intro b
  induction b with
  | nil => intro a h; exact h
  | cons p rest ih =>
    intro a h
    exact ih (upsert a p.1 p.2) (mem_keysOf_upsert a p.1 p.2 h)

theorem alookup_dictMerge {k : String} :
    ∀ (b a : List (String × String)), (keysOf b).Nodup →
      alookup (dictMerge a b) k = if k ∈ keysOf b then alookup b k else alookup a k := by
  intro b
  induction b with
  | nil => intro a _; simp [dictMerge, keysOf, alookup]
  | cons p rest ih =>
    intro a hnd
    obtain ⟨k₁, v₁⟩ := p
    have hnd' : (keysOf rest).Nodup := (List.nodup_cons.mp hnd).2
    have hk₁ : k₁ ∉ keysOf rest := (List.nodup_cons.mp hnd).1
    have hstep : dictMerge a ((k₁, v₁) :: rest) = dictMerge (upsert a k₁ v₁) rest := rfl
    rw [hstep, ih _ hnd']
    by_cases h : k = k₁
    · subst h
      rw [if_neg hk₁, if_pos (by simp [keysOf]), alookup, if_pos rfl,
        alookup_upsert_self]
    · have hmem : (k ∈ keysOf ((k₁, v₁) :: rest)) ↔ (k ∈ keysOf rest) := by
        simp [keysOf, h]
      by_cases hr : k ∈ keysOf rest
      · rw [if_pos hr, if_pos (hmem.mpr hr), alookup, if_neg (fun hc => h hc.symm)]
      · rw [if_neg hr, if_neg (fun hc => hr (hmem.mp hc)),
          alookup_upsert_ne _ _ _ h]

mutual

theorem walkNode_keys_nodup (t : TipTap) :
    ∀ acc : List (String × String) × List String, (keysOf acc.1).Nodup →
      (keysOf (walkNode acc t).1).Nodup := by
  match t with
  | .node ty attrs text content =>
    intro acc h
    rw [walkNode]
    split
    · split
      · exact nodup_keysOf_upsert _ _ _ h
      · exact h
    · split
      · exact walkNodes_keys_nodup content _ h
      · exact walkNodes_keys_nodup content _ h

theorem walkNodes_keys_nodup (ts : List TipTap) :
    ∀ acc : List (String × String) × List String, (keysOf acc.1).Nodup →
      (keysOf (walkNodes acc ts).1).Nodup := by
  match ts with
  | [] => intro acc h; rw [walkNodes]; exact h
  | t :: rest =>
    intro acc h
    rw [walkNodes]
    exact walkNodes_keys_nodup rest _ (walkNode_keys_nodup t _ h)

end

theorem walk_tiptap_keys_nodup (t : TipTap) : (keysOf (walk_tiptap t).1).Nodup :=
  walkNode_keys_nodup t ([], []) (by simp [keysOf])

theorem explicit_uuids_nodup (inp : DocInput) (h : inp.explicit_doc_ids.Nodup) :
    (explicit_uuidsOf inp).Nodup := by
  unfold explicit_uuidsOf
  split
  · exact h
  · exact walk_tiptap_keys_nodup inp.tiptap

theorem merged_uuids_eq_dedup (inp : DocInput) :
    merged_uuidsOf inp = dedupFirst (stageConcatOf inp) := by
  unfold merged_uuidsOf stageConcatOf mergedNoFuzzyOf
  split
  · rw [dedupFirst_dedupFirst_append, List.append_assoc]
  · rename_i h
    rw [not_ne_iff] at h
    rw [h, List.append_nil]

theorem validated_subset_known {uid : String} (inp : DocInput)
    (h : uid ∈ validated_llm_uuidsOf inp) : uid ∈ known_uuidsOf inp := by
  unfold validated_llm_uuidsOf at h
  have h2 := (List.mem_filter.mp h).2
  simpa using h2

theorem explicit_subset_known {uid : String} (inp : DocInput)
    (h : uid ∈ explicit_uuidsOf inp) : uid ∈ known_uuidsOf inp := by
  unfold known_uuidsOf
  exact List.mem_append.mpr (Or.inr h)

/-- Every state update `doc_resolver` can emit carries a resolved list that
is either the raw explicit list (pure-mention shortcut), the staged merge,
or a first-seen dedup of some list. -/
theorem doc_resolver_resolved_shape (inp : DocInput) (u : DocUpdate)
    (hu : (doc_resolver inp).1 = .update u ∨ ∃ tgt, (doc_resolver inp).1 = .goto u tgt) :
    u.resolved_doc_ids = explicit_uuidsOf inp ∨ u.resolved_doc_ids = merged_uuidsOf inp ∨
      ∃ l, u.resolved_doc_ids = dedupFirst l := by
  rcases hu with hu | ⟨tgt, hu⟩ <;>
  · simp only [doc_resolver] at hu
    repeat' split at hu
    all_goals simp_all
    all_goals (try obtain ⟨hu, -⟩ := hu)
    all_goals (try subst hu)
    all_goals (first
      | exact Or.inl rfl
      | exact Or.inr (Or.inl rfl)
      | exact Or.inr (Or.inr ⟨_, rfl⟩))

/-- C4: a turn whose extracted free text is empty or whitespace-only and
which carries at least one explicit tag id makes `doc_resolver` return
immediately with the explicit ids, confidence high and source explicit,
with zero classification calls; the result is independent of every oracle
(classifier result, fuzzy store, scorer, resume slot), so resolving the
same pure-mention turn twice yields identical output. -/
theorem C4_pure_mention_shortcut (inp : DocInput)
    (h1 : pyStrip (free_textOf inp) = "") (h2 : explicit_uuidsOf inp ≠ []) :
    doc_resolver inp = (.update (pure_mention_resultOf inp), 0)
    ∧ (pure_mention_resultOf inp).resolved_doc_ids = explicit_uuidsOf inp
    ∧ (pure_mention_resultOf inp).inference_confidence = .high
    ∧ (pure_mention_resultOf inp).inference_source = "explicit"
    ∧ ∀ res₂ docs₂ sc₂ p₂,
        doc_resolver
          { inp with resolution := res₂, all_docs := docs₂, scorer := sc₂, pending := p₂ }
          = doc_resolver inp := by
  have hp : pureMentionShortcut inp := ⟨h1, h2⟩
  refine ⟨by unfold doc_resolver; rw [if_pos hp], rfl, rfl, rfl, ?_⟩
  intro res₂ docs₂ sc₂ p₂
  have hp₂ : pureMentionShortcut
      { inp with resolution := res₂, all_docs := docs₂, scorer := sc₂, pending := p₂ } :=
    ⟨h1, h2⟩
  unfold doc_resolver
  rw [if_pos hp, if_pos hp₂]
  rfl

/-- Witness for C4 at a concrete pure-mention turn. -/
theorem C4_witness :
    pyStrip (free_textOf pureMentionInput) = ""
    ∧ explicit_uuidsOf pureMentionInput ≠ []
    ∧ doc_resolver pureMentionInput = (.update (pure_mention_resultOf pureMentionInput), 0)
    ∧ (pure_mention_resultOf pureMentionInput).resolved_doc_ids
        = ["11111111-1111-1111-1111-111111111111"] := by
  have h1 : pyStrip (free_textOf pureMentionInput) = "" := by decide
  have h2 : explicit_uuidsOf pureMentionInput ≠ [] := by decide
  exact ⟨h1, h2, (C4_pure_mention_shortcut pureMentionInput h1 h2).1, by decide⟩

/-- C3: the registry merge of the Response Formatter maps a title occurring
in both registries to the newly fetched id, keeps every title that is not
re-resolved with its old id, never removes a key, and on the rename example
`{"Policy A": "id1"}` merged with `{"Policy A": "id2", "Policy B": "id3"}`
yields exactly `{"Policy A": "id2", "Policy B": "id3"}`. -/
theorem C3_registry_merge (inp : FmtInput) (hnd : (keysOf inp.fetched_pairs).Nodup) :
    (∀ t, t ∈ keysOf inp.fetched_pairs →
      alookup (format_response inp).conversation_docs t = alookup inp.fetched_pairs t)
    ∧ (∀ t, t ∉ keysOf inp.fetched_pairs →
      alookup (format_response inp).conversation_docs t = alookup inp.conversation_docs t)
    ∧ (∀ t, t ∈ keysOf inp.conversation_docs →
        t ∈ keysOf (format_response inp).conversation_docs)
    ∧ (format_response renameMergeInput).conversation_docs
        = [("Policy A", "id2"), ("Policy B", "id3")] := by
  refine ⟨?_, ?_, ?_, by decide⟩
  · intro t ht
    show alookup (dictMerge inp.conversation_docs inp.fetched_pairs) t = _
    rw [alookup_dictMerge inp.fetched_pairs inp.conversation_docs hnd, if_pos ht]
  · intro t ht
    show alookup (dictMerge inp.conversation_docs inp.fetched_pairs) t = _
    rw [alookup_dictMerge inp.fetched_pairs inp.conversation_docs hnd, if_neg ht]
  · intro t ht
    exact mem_keysOf_dictMerge_left inp.fetched_pairs inp.conversation_docs ht

/-- Witness for C3 at the rename example. -/
theorem C3_witness :
    (keysOf renameMergeInput.fetched_pairs).Nodup
    ∧ alookup (format_response renameMergeInput).conversation_docs "Policy A" = some "id2"
    ∧ alookup (format_response renameMergeInput).conversation_docs "Policy B" = some "id3"
    ∧ "Policy A" ∈ keysOf (format_response renameMergeInput).conversation_docs := by
  have hnd : (keysOf renameMergeInput.fetched_pairs).Nodup := by decide
  have T := C3_registry_merge renameMergeInput hnd
  refine ⟨hnd, ?_, ?_, T.2.2.1 "Policy A" (by decide)⟩
  · exact (T.1 "Policy A" (by decide)).trans (by decide)
  · exact (T.1 "Policy B" (by decide)).trans (by decide)

/-- C8: a resume call on a thread with no outstanding interrupt fails with
the 400 client error before any state mutation — the resulting snapshot is
the unchanged input snapshot, for every possible graph continuation
`step` — while a resume on a thread with a pending interrupt passes this
check. -/
theorem C8_resume_requires_pending
    (step : ThreadSnapshot → RVal → ThreadSnapshot) (st : ThreadSnapshot)
    (u t : String) (rv : Option String)
    (hu : isValidUUID u = true) (ht : isValidUUID t = true) :
    (hasPendingInterrupt st = false →
      resume_chat step st u t rv =
        (.error ⟨400, "No pending action to resume for this conversation."⟩, st))
    ∧ (hasPendingInterrupt st = true →
      resume_chat step st u t rv =
        (.ok (), step st (match rv with | none => RVal.cancel | some v => RVal.str v))) := by
  constructor <;> intro h <;> unfold resume_chat <;> simp [hu, ht, h]

/-- Witness for C8: with no pending interrupt the snapshot survives even a
wiping continuation; with a pending interrupt the check passes. -/
theorem C8_witness :
    isValidUUID uuidA = true
    ∧ hasPendingInterrupt idleSnapshot = false
    ∧ resume_chat wipeStep idleSnapshot uuidA uuidB (some "x") =
        (.error ⟨400, "No pending action to resume for this conversation."⟩, idleSnapshot)
    ∧ resume_chat wipeStep pendingSnapshot uuidA uuidB none =
        (.ok (), wipeStep pendingSnapshot RVal.cancel) := by
  have hu : isValidUUID uuidA = true := by decide
  have ht : isValidUUID uuidB = true := by decide
  refine ⟨hu, by decide, ?_, ?_⟩
  · exact (C8_resume_requires_pending wipeStep idleSnapshot uuidA uuidB (some "x") hu ht).1
      (by decide)
  · exact (C8_resume_requires_pending wipeStep pendingSnapshot uuidA uuidB none hu ht).2
      (by decide)

/-- On the normal path (no shortcut, no gate) `doc_resolver` returns the
base result after one classification call. -/
theorem doc_resolver_normal_path (inp : DocInput) (h1 : ¬ pureMentionShortcut inp)
    (h2 : ¬ docChoiceGate inp) (h3 : ¬ tagRequestGate inp) :
    doc_resolver inp = (.update (base_resultOf inp), 1) := by
  simp only [doc_resolver]
  rw [if_neg h1, if_neg h2, if_neg h3]

/-- C1 (amended: requires the state-supplied explicit id list itself to be
duplicate-free, which the pure-mention shortcut forwards unchanged): every
resolved list `doc_resolver` emits is duplicate-free, and the staged merge
is exactly the first-seen dedup of explicit ids, then validated classifier
ids, then fuzzy ids — members appear in first-occurrence order of that
concatenation, an id already present is never appended again. -/
theorem C1_resolved_dedup_first_seen (inp : DocInput)
    (hexp : inp.explicit_doc_ids.Nodup) :
    (∀ u : DocUpdate,
        ((doc_resolver inp).1 = .update u ∨ ∃ tgt, (doc_resolver inp).1 = .goto u tgt) →
        u.resolved_doc_ids.Nodup)
    ∧ merged_uuidsOf inp = dedupFirst (stageConcatOf inp)
    ∧ (∀ x, x ∈ merged_uuidsOf inp ↔ x ∈ stageConcatOf inp)
    ∧ (merged_uuidsOf inp).Pairwise
        (fun a b => (stageConcatOf inp).indexOf a < (stageConcatOf inp).indexOf b)
    ∧ (¬ pureMentionShortcut inp → ¬ docChoiceGate inp → ¬ tagRequestGate inp →
        (doc_resolver inp).1 = .update (base_resultOf inp)
        ∧ (base_resultOf inp).resolved_doc_ids = merged_uuidsOf inp) := by
  have hme := merged_uuids_eq_dedup inp
  refine ⟨?_, hme, ?_, ?_, ?_⟩
  · intro u hu
    rcases doc_resolver_resolved_shape inp u hu with h | h | ⟨l, h⟩
    · rw [h]; exact explicit_uuids_nodup inp hexp
    · rw [h, hme]; exact nodup_dedupFirst _
    · rw [h]; exact nodup_dedupFirst _
  · intro x; rw [hme]; exact mem_dedupFirst _
  · rw [hme]; exact pairwise_dedupFirst _
  · intro h1 h2 h3
    exact ⟨by rw [doc_resolver_normal_path inp h1 h2 h3], rfl⟩

/-- C1 counterexample: an empty TipTap payload with state explicit ids
`["a", "a"]` takes the pure-mention shortcut and returns a resolved list
with a duplicate. -/
theorem C1_counterexample :
    (doc_resolver dupExplicitInput).1 = .update (pure_mention_resultOf dupExplicitInput)
    ∧ (pure_mention_resultOf dupExplicitInput).resolved_doc_ids = ["a", "a"]
    ∧ ¬ (pure_mention_resultOf dupExplicitInput).resolved_doc_ids.Nodup :=
  ⟨by decide, by decide, by decide⟩

/-- Witness for C1 on a run that reaches the staged merge. -/
theorem C1_witness :
    hallucinatedFuzzyInput.explicit_doc_ids.Nodup
    ∧ (doc_resolver hallucinatedFuzzyInput).1 = .update (base_resultOf hallucinatedFuzzyInput)
    ∧ (base_resultOf hallucinatedFuzzyInput).resolved_doc_ids.Nodup := by
  have h : hallucinatedFuzzyInput.explicit_doc_ids.Nodup := by decide
  have T := C1_resolved_dedup_first_seen hallucinatedFuzzyInput h
  exact ⟨h, by decide, T.1 _ (Or.inl (by decide))⟩

/-- C2 (amended: an id the classifier returns that is outside
Registry ∪ explicit ids is dropped from the validated classifier list, and
on the normal path it appears in the output exactly when the independent
fuzzy stage resolves it from the entity store — the classifier itself is
never trusted). -/
theorem C2_hallucination_filter (inp : DocInput) (uid : String)
    (_hmem : uid ∈ inp.resolution.resolved_uuids) (hunk : uid ∉ known_uuidsOf inp) :
    uid ∉ validated_llm_uuidsOf inp
    ∧ (uid ∈ merged_uuidsOf inp ↔ uid ∈ fuzzy_uuidsOf inp)
    ∧ (¬ pureMentionShortcut inp → ¬ docChoiceGate inp → ¬ tagRequestGate inp →
        (doc_resolver inp).1 = .update (base_resultOf inp)
        ∧ (uid ∈ (base_resultOf inp).resolved_doc_ids ↔ uid ∈ fuzzy_uuidsOf inp)) := by
  have hval : uid ∉ validated_llm_uuidsOf inp := fun h => hunk (validated_subset_known inp h)
  have hexp : uid ∉ explicit_uuidsOf inp := fun h => hunk (explicit_subset_known inp h)
  have hmm : uid ∈ merged_uuidsOf inp ↔ uid ∈ fuzzy_uuidsOf inp := by
    rw [merged_uuids_eq_dedup, mem_dedupFirst]
    unfold stageConcatOf
    simp only [List.mem_append]
    tauto
  refine ⟨hval, hmm, ?_⟩
  intro h1 h2 h3
  exact ⟨by rw [doc_resolver_normal_path inp h1 h2 h3], hmm⟩

/-- C2 counterexample: a hallucinated id outside the known set still
reaches the final resolved set when the fuzzy stage maps an unresolved name
to a stored document carrying that very id. -/
theorem C2_counterexample :
    "11111111-1111-1111-1111-111111111111"
        ∈ hallucinatedFuzzyInput.resolution.resolved_uuids
    ∧ "11111111-1111-1111-1111-111111111111" ∉ known_uuidsOf hallucinatedFuzzyInput
    ∧ (doc_resolver hallucinatedFuzzyInput).1 = .update (base_resultOf hallucinatedFuzzyInput)
    ∧ "11111111-1111-1111-1111-111111111111"
        ∈ (base_resultOf hallucinatedFuzzyInput).resolved_doc_ids :=
  ⟨by decide, by decide, by decide, by decide⟩

/-- Witness for C2 on a run where the hallucinated id is dropped for good
(no fuzzy re-entry). -/
theorem C2_witness :
    "bad" ∈ droppedHallucinationInput.resolution.resolved_uuids
    ∧ "bad" ∉ known_uuidsOf droppedHallucinationInput
    ∧ "bad" ∉ validated_llm_uuidsOf droppedHallucinationInput
    ∧ "bad" ∉ (base_resultOf droppedHallucinationInput).resolved_doc_ids := by
  have hm : "bad" ∈ droppedHallucinationInput.resolution.resolved_uuids := by decide
  have hk : "bad" ∉ known_uuidsOf droppedHallucinationInput := by decide
  have T := C2_hallucination_filter droppedHallucinationInput "bad" hm hk
  refine ⟨hm, hk, T.1, fun h => ?_⟩
  have hf := T.2.1.mp h
  have hfz : fuzzy_uuidsOf droppedHallucinationInput = [] := by decide
  rw [hfz] at hf
  exact (List.not_mem_nil _) hf

theorem doc_resolver_gate1_first_pass (inp : DocInput) (hnp : ¬ pureMentionShortcut inp)
    (hg : docChoiceGate inp) (hp : inp.pending = none) :
    doc_resolver inp = (.suspend ⟨"doc_choice",
      "Which document would you like to " ++ action_verbOf inp.action ++ "?",
      some (doc_choice_optionsOf inp)⟩, 1) := by
  simp only [doc_resolver]
  rw [if_neg hnp, if_pos hg, hp]

theorem doc_resolver_gate1_resume_all (inp : DocInput) (hnp : ¬ pureMentionShortcut inp)
    (hg : docChoiceGate inp) (hp : inp.pending = some (.str "all")) :
    doc_resolver inp = (.update { base_resultOf inp with
      resolved_doc_ids := dedupFirst (merged_uuidsOf inp ++ suggested_doc_idsOf inp)
      inference_confidence := .high }, 1) := by
  simp only [doc_resolver]
  rw [if_neg hnp, if_pos hg, hp]
  rfl

theorem doc_resolver_gate1_resume_one (inp : DocInput) (v : String)
    (hnp : ¬ pureMentionShortcut inp) (hg : docChoiceGate inp)
    (hp : inp.pending = some (.str v)) (hv : v ≠ "all") :
    doc_resolver inp = (.update { base_resultOf inp with
      resolved_doc_ids := dedupFirst (merged_uuidsOf inp ++ [v])
      inference_confidence := .high }, 1) := by
  simp only [doc_resolver]
  rw [if_neg hnp, if_pos hg, hp]
  simp [hv]

theorem doc_resolver_gate2_first_pass (inp : DocInput) (hnp : ¬ pureMentionShortcut inp)
    (hg1 : ¬ docChoiceGate inp) (hg2 : tagRequestGate inp) (hp : inp.pending = none) :
    doc_resolver inp = (.suspend ⟨"text_input",
      "I couldn\x27t find the document you\x27re referring to. Please @tag the document you\x27d like to use.",
      none⟩, 1) := by
  simp only [doc_resolver]
  rw [if_neg hnp, if_neg hg1, if_pos hg2, hp]

theorem doc_resolver_gate2_resume_invalid (inp : DocInput) (v : String)
    (hnp : ¬ pureMentionShortcut inp) (hg1 : ¬ docChoiceGate inp)
    (hg2 : tagRequestGate inp) (hp : inp.pending = some (.str v))
    (hv : isValidUUID v = false) :
    doc_resolver inp = (.update { base_resultOf inp with inference_confidence := .low }, 1) := by
  simp only [doc_resolver]
  rw [if_neg hnp, if_neg hg1, if_pos hg2, hp]
  simp [hv]

/-- C5: the choose-one gate fires exactly when the classifier confidence is
medium and the suggested list (the validated classifier ids) is non-empty;
its payload offers one option per suggested id plus the `all` option;
resuming with `all` merges every suggestion, resuming with a single id
merges just that id, both forcing confidence high. -/
theorem C5_choose_one_gate (inp : DocInput) (hnp : ¬ pureMentionShortcut inp) :
    (inp.pending = none →
      ((∃ p, (doc_resolver inp).1 = .suspend p ∧ p.interrupt_type = "doc_choice") ↔
        docChoiceGate inp))
    ∧ (docChoiceGate inp → inp.pending = none →
        (doc_resolver inp).1 = .suspend ⟨"doc_choice",
          "Which document would you like to " ++ action_verbOf inp.action ++ "?",
          some (doc_choice_optionsOf inp)⟩)
    ∧ (docChoiceGate inp → inp.pending = some (.str "all") →
        (doc_resolver inp).1 = .update { base_resultOf inp with
          resolved_doc_ids := dedupFirst (merged_uuidsOf inp ++ suggested_doc_idsOf inp)
          inference_confidence := .high }
        ∧ ∀ s ∈ suggested_doc_idsOf inp,
            s ∈ dedupFirst (merged_uuidsOf inp ++ suggested_doc_idsOf inp))
    ∧ (∀ v, docChoiceGate inp → inp.pending = some (.str v) → v ≠ "all" →
        (doc_resolver inp).1 = .update { base_resultOf inp with
          resolved_doc_ids := dedupFirst (merged_uuidsOf inp ++ [v])
          inference_confidence := .high })
    ∧ (docChoiceGate inp →
        inp.resolution.inference_confidence = .medium
        ∧ suggested_doc_idsOf inp = validated_llm_uuidsOf inp
        ∧ doc_choice_optionsOf inp = (suggested_doc_idsOf inp).map (fun uid =>
            ⟨uid, strOr (alookup (doc_mentionsOf inp) uid)
              (strOr (alookup (uuid_to_titleOf inp) uid) uid)⟩) ++ [⟨"all", "All of these"⟩]) := by
  refine ⟨?_, ?_, ?_, ?_, ?_⟩
  · intro hp
    constructor
    · rintro ⟨p, hps, hty⟩
      by_contra hg
      by_cases hg2 : tagRequestGate inp
      · rw [doc_resolver_gate2_first_pass inp hnp hg hg2 hp] at hps
        simp only [Outcome.suspend.injEq] at hps
        rw [← hps] at hty
        exact absurd hty (by decide)
      · rw [doc_resolver_normal_path inp hnp hg hg2] at hps
        exact absurd hps (by simp)
    · intro hg
      exact ⟨_, by rw [doc_resolver_gate1_first_pass inp hnp hg hp], rfl⟩
  · intro hg hp
    rw [doc_resolver_gate1_first_pass inp hnp hg hp]
  · intro hg hp
    refine ⟨by rw [doc_resolver_gate1_resume_all inp hnp hg hp], ?_⟩
    intro s hs
    rw [mem_dedupFirst]
    exact List.mem_append.mpr (Or.inr hs)
  · intro v hg hp hv
    rw [doc_resolver_gate1_resume_one inp v hnp hg hp hv]
  · intro hg
    refine ⟨hg.1, ?_, rfl⟩
    unfold suggested_doc_idsOf
    rw [if_pos (by rw [hg.1]; decide)]

/-- Witness for C5 at the two-suggestion scenario: the payload offers
`d1`, `d2` and `all`, and resuming `all` resolves both ids with confidence
forced high. -/
theorem C5_witness :
    (¬ pureMentionShortcut mediumChoiceInput)
    ∧ docChoiceGate mediumChoiceInput
    ∧ (doc_resolver mediumChoiceInput).1 = .suspend ⟨"doc_choice",
        "Which document would you like to compare?",
        some [⟨"d1", "Policy One"⟩, ⟨"d2", "Policy Two"⟩, ⟨"all", "All of these"⟩]⟩
    ∧ (∃ u, (doc_resolver { mediumChoiceInput with pending := some (.str "all") }).1 =
          .update u
        ∧ u.resolved_doc_ids = ["d1", "d2"] ∧ u.inference_confidence = .high) := by
  have hnp : ¬ pureMentionShortcut mediumChoiceInput := by decide
  have hnp₂ : ¬ pureMentionShortcut { mediumChoiceInput with pending := some (.str "all") } := by
    decide
  have T := C5_choose_one_gate mediumChoiceInput hnp
  have T₂ := C5_choose_one_gate { mediumChoiceInput with pending := some (.str "all") } hnp₂
  refine ⟨hnp, by decide, ?_, ?_⟩
  · rw [T.2.1 (by decide) rfl]
    decide
  · refine ⟨_, (T₂.2.2.1 (by decide) rfl).1, by decide, by decide⟩

theorem validate_inputs_gate1_first (inp : VInput) (hcg : countGate inp)
    (hp : inp.pending = none) :
    validate_inputs inp = .suspend ⟨"text_input", gate1MsgOf inp.action, none⟩ := by
  simp only [validate_inputs]
  rw [if_pos hcg, hp]

theorem validate_inputs_gate1_cancel (inp : VInput) (hcg : countGate inp)
    (hp : inp.pending = some .cancel) :
    validate_inputs inp = .goto { preGateResultOf inp with
      response := some (gate1CancelMsgOf inp.action)
      new_messages := [.ai (gate1CancelMsgOf inp.action)] } "format_response" := by
  simp only [validate_inputs]
  rw [if_pos hcg, hp]

theorem validate_inputs_gate1_resume_invalid (inp : VInput) (v : String)
    (hcg : countGate inp) (hp : inp.pending = some (.str v))
    (hv : isValidUUID v = false) :
    validate_inputs inp = .update (preGateResultOf inp) := by
  simp only [validate_inputs]
  rw [if_pos hcg, hp]
  simp [hv]

theorem validate_inputs_gate1_resume_valid (inp : VInput) (v : String)
    (hcg : countGate inp) (hp : inp.pending = some (.str v))
    (hv : isValidUUID v = true) :
    validate_inputs inp = .update { preGateResultOf inp with
      resolved_doc_ids := some (dedupFirst (expandedResolvedOf inp ++ [v])) } := by
  simp only [validate_inputs]
  rw [if_pos hcg, hp]
  simp [hv]

theorem validate_inputs_gate2_first (inp : VInput) (hcg : ¬ countGate inp)
    (hg2 : auditTextGate inp) (hp : inp.pending = none) :
    validate_inputs inp = .suspend ⟨"text_input", auditGateMsg, none⟩ := by
  simp only [validate_inputs]
  rw [if_neg hcg, if_pos hg2, hp]

theorem validate_inputs_gate2_resume (inp : VInput) (v : String) (hcg : ¬ countGate inp)
    (hg2 : auditTextGate inp) (hp : inp.pending = some (.str v)) :
    validate_inputs inp = .update { preGateResultOf inp with new_messages := [.human v] } := by
  simp only [validate_inputs]
  rw [if_neg hcg, if_pos hg2, hp]

theorem validate_inputs_no_gate (inp : VInput) (hcg : ¬ countGate inp)
    (hg2 : ¬ auditTextGate inp) :
    validate_inputs inp = .update (preGateResultOf inp) := by
  simp only [validate_inputs]
  rw [if_neg hcg, if_neg hg2]

theorem gate1Msg_ne_auditGateMsg (a : String) : gate1MsgOf a ≠ auditGateMsg := by
  unfold gate1MsgOf auditGateMsg
  split
  · decide
  · split
    · decide
    · decide

/-- C6: for a comparison turn with one resolved entity and the web-search
flag set, the Validation Gate clears the flag and raises the
need-more-entities suspension; on cancel, the short-circuit update still
carries `enable_web_search = false` and its canned message mentions
needing 2 documents. -/
theorem C6_compare_web_clear (inp : VInput)
    (ha : inp.action = "compare") (hn : inp.resolved_doc_ids.length = 1)
    (hw : inp.enable_web_search = true) (hs : inp.set_id = none) :
    (preGateResultOf inp).enable_web_search = some false
    ∧ (inp.pending = none →
        validate_inputs inp = .suspend ⟨"text_input",
          "Compare requires at least 2 documents. Please @tag the additional document.",
          none⟩)
    ∧ (inp.pending = some .cancel →
        ∃ u : VUpdate, validate_inputs inp = .goto u "format_response"
          ∧ u.enable_web_search = some false
          ∧ u.response = some (gate1CancelMsgOf inp.action)
          ∧ strContains (gate1CancelMsgOf inp.action) "2 documents" = true) := by
  have hse : ¬ setExpansionRuns inp := by
    simp [setExpansionRuns, pyTruthyStrOpt, hs]
  have hex : expandedResolvedOf inp = inp.resolved_doc_ids := by
    simp [expandedResolvedOf, hse]
  have hcg : countGate inp := by
    unfold countGate
    rw [hex, hn, ha]
    decide
  have hweb : (preGateResultOf inp).enable_web_search = some false := by
    simp [preGateResultOf, hse, ha, hw]
  refine ⟨hweb, ?_, ?_⟩
  · intro hp
    rw [validate_inputs_gate1_first inp hcg hp, ha]
    decide
  · intro hp
    refine ⟨_, validate_inputs_gate1_cancel inp hcg hp, hweb, rfl, ?_⟩
    rw [ha]
    decide

/-- Witness for C6 at the concrete one-document comparison turn, both on
the first pass and on the cancel resume. -/
theorem C6_witness :
    compareOneDocInput.action = "compare"
    ∧ compareOneDocInput.resolved_doc_ids.length = 1
    ∧ compareOneDocInput.enable_web_search = true
    ∧ validate_inputs compareOneDocInput = .suspend ⟨"text_input",
        "Compare requires at least 2 documents. Please @tag the additional document.", none⟩
    ∧ (∃ u : VUpdate,
        validate_inputs { compareOneDocInput with pending := some .cancel } =
          .goto u "format_response"
        ∧ u.enable_web_search = some false
        ∧ strContains (gate1CancelMsgOf "compare") "2 documents" = true) := by
  have T := C6_compare_web_clear compareOneDocInput rfl (by decide) rfl rfl
  have T₂ := C6_compare_web_clear { compareOneDocInput with pending := some .cancel }
    rfl (by decide) rfl rfl
  refine ⟨rfl, by decide, rfl, T.2.1 rfl, ?_⟩
  obtain ⟨u, hgoto, hwebu, _, hmsg⟩ := T₂.2.2 rfl
  exact ⟨u, hgoto, hwebu, hmsg⟩

/-- C7: the need-audit-text gate fires exactly when the count gate did not,
the action is audit, and the latest human text with tag tokens stripped is
shorter than 50 characters; a non-cancel resume returns the text as a new
human turn (appended by the messages reducer, so the last human message the
action executor reads is that text) and leaves the resolved set untouched. -/
theorem C7_need_audit_text (inp : VInput) (hs : inp.set_id = none) :
    (inp.pending = none →
      (validate_inputs inp = .suspend ⟨"text_input", auditGateMsg, none⟩ ↔
        (¬ countGate inp ∧ inp.action = "audit" ∧ is_audit_text_missing inp.messages = true)))
    ∧ (∀ v : String, ¬ countGate inp → auditTextGate inp →
        inp.pending = some (.str v) →
        validate_inputs inp = .update { emptyVUpdate with new_messages := [.human v] }
        ∧ ({ emptyVUpdate with new_messages := [.human v] } : VUpdate).resolved_doc_ids = none
        ∧ lastHumanText (applyMessages inp.messages [.human v]) = some v) := by
  have hse : ¬ setExpansionRuns inp := by
    simp [setExpansionRuns, pyTruthyStrOpt, hs]
  constructor
  · intro hp
    constructor
    · intro hsusp
      by_cases hcg : countGate inp
      · rw [validate_inputs_gate1_first inp hcg hp] at hsusp
        simp only [Outcome.suspend.injEq, InterruptPayload.mk.injEq] at hsusp
        exact absurd hsusp.2.1 (gate1Msg_ne_auditGateMsg inp.action)
      · by_cases hg2 : auditTextGate inp
        · exact ⟨hcg, hg2.1, hg2.2⟩
        · rw [validate_inputs_no_gate inp hcg hg2] at hsusp
          exact absurd hsusp (by simp)
    · rintro ⟨hcg, ha, hmiss⟩
      exact validate_inputs_gate2_first inp hcg ⟨ha, hmiss⟩ hp
  · intro v hcg hg2 hp
    have hpre : preGateResultOf inp = emptyVUpdate := by
      have hne : inp.action ≠ "compare" := by rw [hg2.1]; decide
      simp [preGateResultOf, hse, hne]
    refine ⟨?_, rfl, ?_⟩
    · rw [validate_inputs_gate2_resume inp v hcg hg2 hp, hpre]
    · exact lastHumanText_append_human inp.messages v

/-- Witness for C7 at the tag-only audit turn: the gate fires, and resuming
with the excerpt appends it as the new last human turn. -/
theorem C7_witness :
    (¬ countGate auditTagOnlyInput
      ∧ auditTagOnlyInput.action = "audit"
      ∧ is_audit_text_missing auditTagOnlyInput.messages = true)
    ∧ validate_inputs auditTagOnlyInput = .suspend ⟨"text_input", auditGateMsg, none⟩
    ∧ validate_inputs { auditTagOnlyInput with pending := some (.str sampleAuditText) } =
        .update { emptyVUpdate with new_messages := [.human sampleAuditText] }
    ∧ lastHumanText
        (applyMessages auditTagOnlyInput.messages [.human sampleAuditText]) =
        some sampleAuditText := by
  have hconds : ¬ countGate auditTagOnlyInput ∧ auditTagOnlyInput.action = "audit"
      ∧ is_audit_text_missing auditTagOnlyInput.messages = true := by
    refine ⟨by decide, rfl, by decide⟩
  have T := C7_need_audit_text auditTagOnlyInput rfl
  have T₂ := C7_need_audit_text { auditTagOnlyInput with pending := some (.str sampleAuditText) }
    rfl
  have hres := T₂.2 sampleAuditText (by decide) ⟨rfl, by decide⟩ rfl
  exact ⟨hconds, (T.1 rfl).mpr hconds, hres.1, hres.2.2⟩

/-- C10 (implicit): the doc_choice resume branch merges any non-cancel,
non-`all` resume value into the resolved set with no validation at all —
the value need not be a UUID, an offered option, or a known id — whereas
the free-text gates (`doc_resolver` gate 2 and the `validate_inputs` count
gate) accept a value only when it parses as a UUID and otherwise leave the
resolved set unchanged. -/
theorem C10_resume_validation_asymmetry :
    (∀ (inp : DocInput) (v : String), ¬ pureMentionShortcut inp → docChoiceGate inp →
      inp.pending = some (.str v) → v ≠ "all" →
      (doc_resolver inp).1 = .update { base_resultOf inp with
        resolved_doc_ids := dedupFirst (merged_uuidsOf inp ++ [v])
        inference_confidence := .high }
      ∧ v ∈ dedupFirst (merged_uuidsOf inp ++ [v]))
    ∧ (∀ (inp : DocInput) (v : String), ¬ pureMentionShortcut inp → ¬ docChoiceGate inp →
      tagRequestGate inp → inp.pending = some (.str v) → isValidUUID v = false →
      (doc_resolver inp).1 = .update { base_resultOf inp with inference_confidence := .low }
      ∧ ({ base_resultOf inp with inference_confidence := Conf.low } : DocUpdate).resolved_doc_ids
          = merged_uuidsOf inp)
    ∧ (∀ (inp : VInput) (v : String), countGate inp → inp.pending = some (.str v) →
      isValidUUID v = false →
      validate_inputs inp = .update (preGateResultOf inp)) := by
  refine ⟨?_, ?_, ?_⟩
  · intro inp v hnp hg hp hv
    refine ⟨by rw [doc_resolver_gate1_resume_one inp v hnp hg hp hv], ?_⟩
    rw [mem_dedupFirst]
    exact List.mem_append.mpr (Or.inr (List.mem_singleton.mpr rfl))
  · intro inp v hnp hg1 hg2 hp hv
    exact ⟨by rw [doc_resolver_gate2_resume_invalid inp v hnp hg1 hg2 hp hv], rfl⟩
  · intro inp v hcg hp hv
    exact validate_inputs_gate1_resume_invalid inp v hcg hp hv

/-- Witness for C10: the value `not-a-uuid` is merged by the doc_choice
resume but rejected by both text_input gates. -/
theorem C10_witness :
    isValidUUID "not-a-uuid" = false
    ∧ (∃ u, (doc_resolver looseResumeInput).1 = .update u
        ∧ "not-a-uuid" ∈ u.resolved_doc_ids)
    ∧ (∃ u, (doc_resolver strictTagInput).1 = .update u
        ∧ u.resolved_doc_ids = merged_uuidsOf strictTagInput
        ∧ "not-a-uuid" ∉ u.resolved_doc_ids)
    ∧ validate_inputs countGateResumeInput = .update (preGateResultOf countGateResumeInput) := by
  have hv : isValidUUID "not-a-uuid" = false := by decide
  have T := C10_resume_validation_asymmetry
  have h1 := T.1 looseResumeInput "not-a-uuid" (by decide) (by decide) rfl (by decide)
  have h2 := T.2.1 strictTagInput "not-a-uuid" (by decide) (by decide) (by decide) rfl hv
  have h3 := T.2.2 countGateResumeInput "not-a-uuid" (by decide) rfl hv
  refine ⟨hv, ⟨_, h1.1, h1.2⟩, ⟨_, h2.1, h2.2, ?_⟩, h3⟩
  rw [h2.2]
  decide

/-- C9 (code bug): the node binds the whole `LLMResult` of the pass-1
classification call without the `.parsed` unwrap every other call site
uses (doc_resolver.py:328 vs intent_resolver.py:140), so on every turn
without an explicit caller action the first attribute access
`classification.action` (intent_resolver.py:144) raises `AttributeError`
and the pass-2 escalation, the summarize-to-inquire override and both
gates — the behavior the claim and the node\x27s own header comments
describe — are unreachable; the explicit-action path, which the claim
exempts, returns normally before any classification. -/
theorem C9_intent_classification_crash :
    (∀ inp : IntentInput, inp.frontend_action = "" →
      intent_resolver inp = (.error ⟨"AttributeError",
        "\x27LLMResult\x27 object has no attribute \x27action\x27"⟩, 1))
    ∧ (∀ inp : IntentInput, inp.frontend_action ≠ "" →
      intent_resolver inp = (.ok (.update
        { action := some inp.frontend_action
          enable_web_search := some (inp.frontend_web || temporalMatch (lastMessageTextOf inp))
          response := none
          new_messages := [] }), 0)) := by
  constructor
  · intro inp h
    simp only [intent_resolver]
    rw [if_neg (by simp [h])]
  · intro inp h
    simp only [intent_resolver]
    rw [if_pos h]

/-- Witness for C9: the specific-question summarize turn of the override
scenario aborts with the AttributeError, while the explicit-action turn
returns normally with zero classification calls. -/
theorem C9_witness :
    specificSummarizeInput.frontend_action = ""
    ∧ (specificSummarizeInput.pass1.parsed.action = "summarize"
        ∧ specificTopicMatch (lastMessageTextOf specificSummarizeInput) = true)
    ∧ intent_resolver specificSummarizeInput = (.error ⟨"AttributeError",
        "\x27LLMResult\x27 object has no attribute \x27action\x27"⟩, 1)
    ∧ explicitActionInput.frontend_action ≠ ""
    ∧ intent_resolver explicitActionInput = (.ok (.update
        { action := some "audit"
          enable_web_search := some false
          response := none
          new_messages := [] }), 0) := by
  have T := C9_intent_classification_crash
  refine ⟨rfl, ⟨rfl, by decide⟩, T.1 specificSummarizeInput rfl, by decide, ?_⟩
  rw [T.2 explicitActionInput (by decide)]
  rfl

end PolicyPal
